import Mathlib

/-!
Shallow embedding of the RubricFinder retrieval core.

Sources embedded here:
  * `src/embedder.py`  — `RubricEmbedder` (add_rubrics / search / get_existing_ids /
    count / clear / __init__ mode selection);
  * `src/models.py`    — Pydantic response models (`RubricResult`, `SearchResponse`);
  * `src/api.py`       — `_perform_search` (HTTP search handler);
  * `scripts/evaluate_search.py` and `scripts/compare_embeddings.py` — the
    evaluation harness (Hit@K, MRR) and the A/B comparison rule.

Modelling conventions:
  * The sentence-transformer model and Qdrant's cosine scoring are external
    dependencies; they are abstracted as a score function
    `score : String → Point → ℚ` (query text to similarity of a stored point).
    Qdrant returns hits sorted by score descending; we model that with an
    insertion sort (tie order in Qdrant is unspecified anyway).
  * Python's built-in `hash` on strings is salted per process; it is passed in
    as an arbitrary function `h : String → ℤ`.  The mask
    `hash(id) & 0x7FFFFFFFFFFFFFFF` equals `hash(id) mod 2^63` in Python's
    infinite-two's-complement semantics.
  * Python floats appearing in the scripts (`1.05`, score rounding) are
    modelled as exact rationals; no claim here depends on binary-float
    rounding of those constants.
-/

namespace RubricFinder

/-- Model of `RubricData` (embedder.py lines 12-18): one input record.  Python's
`r.get("remedy_count", 0)` default is modelled by the field always being
present. -/
structure RubricData where
  id : String
  path : String
  trans : String
  chapter : String
  remedy_count : Nat
deriving DecidableEq, Repr

/-- The payload stored with each Qdrant point (embedder.py lines 119-125). -/
structure Payload where
  rubric_id : String
  path : String
  trans : String
  chapter : String
  remedy_count : Nat
deriving DecidableEq, Repr

/-- A stored point: integer point id plus payload.  The embedding vector is
delegated to the external model and does not influence any claim, so it is
not carried. -/
structure Point where
  pid : Nat
  payload : Payload
deriving DecidableEq, Repr

/-- Distance metric of a collection (qdrant `Distance`). -/
inductive Distance where
  | cosine
  | euclid
deriving DecidableEq, Repr

/-- Model of `VectorParams(size=..., distance=...)`. -/
structure VectorParams where
  size : Nat
  distance : Distance
deriving DecidableEq, Repr

/-- The single collection owned by `RubricEmbedder`: its name, schema and
stored points. -/
structure Collection where
  cname : String
  params : VectorParams
  points : List Point
deriving DecidableEq, Repr

/-- Constant `VECTOR_SIZE = 384`. -/
def VECTOR_SIZE : Nat := 384

/-- Constant `BATCH_SIZE = 500`. -/
def BATCH_SIZE : Nat := 500

/-- The freshly created collection of `_ensure_collection` / `clear`
(embedder.py lines 70-80, 196-205): 384-dimensional, cosine distance, empty. -/
def freshCollection (name : String) : Collection :=
  { cname := name, params := { size := VECTOR_SIZE, distance := Distance.cosine }, points := [] }

/-- Model of `count()` (embedder.py lines 191-194): the number of stored points. -/
def count (c : Collection) : Nat :=
  c.points.length

/-- Model of `get_existing_ids()` (embedder.py lines 169-189): the `rubric_id` payload
field of every stored point.  The code scrolls in pages of 1000 and
concatenates; the concatenation of all pages is exactly this map. -/
def get_existing_ids (c : Collection) : List String :=
  c.points.map (fun p => p.payload.rubric_id)

/-- Model of `hash(id) & 0x7FFFFFFFFFFFFFFF` (embedder.py line 117): in Python,
`x & (2^63 - 1)` equals `x mod 2^63` for every integer `x`.  `h` is the
process's string-hash function. -/
def maskHash (h : String → Int) (s : String) : Nat :=
  ((h s) % ((2 : Int) ^ 63)).toNat

/-- The `PointStruct` built for one record (embedder.py lines 115-128). -/
def pointOf (h : String → Int) (r : RubricData) : Point :=
  { pid := maskHash h r.id
    payload := { rubric_id := r.id, path := r.path, trans := r.trans,
                 chapter := r.chapter, remedy_count := r.remedy_count } }

/-- Qdrant upsert of a single point: replace the point with the same id if
present, otherwise append. -/
def upsertPoint (store : List Point) (p : Point) : List Point :=
  if store.any (fun q => q.pid = p.pid) then
    store.map (fun q => if q.pid = p.pid then p else q)
  else
    store ++ [p]

/-- Qdrant upsert of a batch, point by point (later duplicates win). -/
def upsertPoints (store : List Point) (ps : List Point) : List Point :=
  ps.foldl upsertPoint store

/-- Split a list into the batches `rubrics[i:i+BATCH_SIZE]` of the loop in
embedder.py lines 107-134. -/
def toBatches : List RubricData → List (List RubricData)
  | [] => []
  | x :: xs => ((x :: xs).take BATCH_SIZE) :: toBatches ((x :: xs).drop BATCH_SIZE)
termination_by l => l.length
decreasing_by
  simp only [List.length_drop, List.length_cons, BATCH_SIZE]
  omega

/-- One iteration of the batch loop of `add_rubrics` (embedder.py lines
107-134): embed the batch, upsert its points, and add the batch length to the
running `added` counter. -/
def addStep (h : String → Int) (acc : Nat × Collection)
    (batch : List RubricData) : Nat × Collection :=
  (acc.1 + batch.length,
   { acc.2 with points := upsertPoints acc.2.points (batch.map (pointOf h)) })

/-- Model of `add_rubrics(rubrics, skip_existing)` (embedder.py lines 82-136): filter
out already-present ids when `skip_existing`, return 0 early on an empty
remainder, otherwise embed and upsert batch by batch, summing batch lengths.
Returns (number added, new collection state). -/
def add_rubrics (h : String → Int) (c : Collection) (rubrics : List RubricData)
    (skip_existing : Bool) : Nat × Collection :=
  let rs := if skip_existing then
      rubrics.filter (fun r => ¬ r.id ∈ get_existing_ids c)
    else rubrics
  if rs.isEmpty then (0, c)
  else (toBatches rs).foldl (addStep h) (0, c)

/-- Insert a point into a list kept sorted by score descending (stable: an
incoming point goes after existing points of equal score). -/
def insertDesc (score : Point → ℚ) (p : Point) : List Point → List Point
  | [] => [p]
  | q :: qs => if score q < score p then p :: q :: qs else q :: insertDesc score p qs

/-- Sort points by score descending — the order in which Qdrant returns
nearest-neighbour hits for cosine similarity. -/
def sortByScoreDesc (score : Point → ℚ) : List Point → List Point
  | [] => []
  | p :: ps => insertDesc score p (sortByScoreDesc score ps)

/-- Model of `round(x, 4)` of embedder.py line 164, modelled as arithmetic rounding to
4 decimal places (Python uses round-half-even; no claim exercises a tie). -/
def round4 (x : ℚ) : ℚ :=
  (⌊x * 10000 + 1/2⌋ : ℚ) / 10000

/-- One search result dict (embedder.py lines 157-167). -/
structure Result where
  rubric_id : String
  path : String
  trans : String
  chapter : String
  remedy_count : Nat
  score : ℚ
deriving DecidableEq, Repr

/-- Model of `search(query, top_k)` (embedder.py lines 138-167): query the store with
`limit = min(top_k, max(1, count()))`, then project each hit's payload and
rounded score.  `sim q p` is the cosine similarity of the embedded query `q`
and the stored point `p` (external model, abstracted). -/
def search (sim : String → Point → ℚ) (c : Collection) (query : String)
    (top_k : Nat) : List Result :=
  let hits := (sortByScoreDesc (sim query) c.points).take
    (min top_k (max 1 (count c)))
  hits.map (fun p =>
    { rubric_id := p.payload.rubric_id
      path := p.payload.path
      trans := p.payload.trans
      chapter := p.payload.chapter
      remedy_count := p.payload.remedy_count
      score := round4 (sim query p) })

/-- Model of `clear()` (embedder.py lines 196-205): delete the collection and recreate
it under the same name with the fixed 384-dim cosine schema. -/
def clear (c : Collection) : Collection :=
  freshCollection c.cname

/-! ### Constructor mode selection (embedder.py lines 29-62) -/

/-- Python truthiness of an `Optional[str]`: `None` and `""` are falsy. -/
def pyTruthy : Option String → Bool
  | none => false
  | some s => !s.isEmpty

/-- Python's `a or b` on `Optional[str]` values. -/
def pyOr (a b : Option String) : Option String :=
  if pyTruthy a then a else b

/-- The `mode` field set by `RubricEmbedder.__init__` (embedder.py lines
50-62): `cloud_url = url or QDRANT_URL`, `cloud_key = api_key or
QDRANT_API_KEY`; cloud mode iff both are truthy, else local mode backed by
`persist_dir`. -/
def initMode (url api_key envUrl envKey : Option String) : String :=
  let cloud_url := pyOr url envUrl
  let cloud_key := pyOr api_key envKey
  if pyTruthy cloud_url && pyTruthy cloud_key then "cloud" else "local"

/-! ### API layer (src/models.py, src/api.py)

The Pydantic result model is represented as an association list of field
name to value, so that which fields are present in the serialized response
is expressible. -/

/-- A JSON-ish field value. -/
inductive Val where
  | s (v : String)
  | n (v : Nat)
  | q (v : ℚ)
deriving DecidableEq, Repr

/-- The dict literal built by `RubricEmbedder.search` for one hit
(embedder.py lines 157-165): six entries. -/
def resultEntries (r : Result) : List (String × Val) :=
  [("rubric_id", Val.s r.rubric_id),
   ("path", Val.s r.path),
   ("translation", Val.s r.trans),
   ("chapter", Val.s r.chapter),
   ("remedy_count", Val.n r.remedy_count),
   ("score", Val.q r.score)]

/-- The fields declared on the Pydantic model `RubricResult`
(models.py lines 12-18): rubric_id, path, translation, chapter, score —
and no others. -/
def rubricResultFields : List String :=
  ["rubric_id", "path", "translation", "chapter", "score"]

/-- Pydantic v2 validation of `RubricResult(**r)` with the default
`extra="ignore"`: keep exactly the declared fields, dropping unknown keys
such as `remedy_count`. -/
def mkRubricResult (d : List (String × Val)) : List (String × Val) :=
  rubricResultFields.filterMap (fun k => (d.lookup k).map (fun v => (k, v)))

/-- Model of `HTTPException` as raised by the handler. -/
structure HTTPError where
  status_code : Nat
  detail : String
deriving DecidableEq, Repr

/-- Model of `SearchResponse` (models.py lines 21-25). -/
structure SearchResponse where
  query : String
  results : List (List (String × Val))
  total_in_collection : Nat
deriving DecidableEq, Repr

/-- Model of `_perform_search(query, top_k)` (api.py lines 77-93): 503 when the
collection is empty, otherwise search and wrap each hit in `RubricResult`. -/
def perform_search (sim : String → Point → ℚ) (c : Collection) (query : String)
    (top_k : Nat) : Except HTTPError SearchResponse :=
  if count c = 0 then
    Except.error { status_code := 503,
                   detail := "No rubrics in collection. Run embed_rubrics.py first." }
  else
    Except.ok { query := query
                results := (search sim c query top_k).map
                  (fun r => mkRubricResult (resultEntries r))
                total_in_collection := count c }

/-! ### Evaluation harness (scripts/evaluate_search.py lines 54-116,
scripts/compare_embeddings.py lines 111-165)

One evaluation query is a pair (expected rubric_id, ranked list of
rubric_ids returned by `search(sentence, top_k=10)`).  The per-rubric /
per-test-column iteration of the scripts flattens to such a list. -/

/-- The rank scan (evaluate_search.py lines 78-84): 1-indexed position of the
first hit whose `rubric_id` equals the expected id, `none` when absent. -/
def findRank (expected : String) (resultIds : List String) : Option Nat :=
  (resultIds.findIdx? (fun rid => rid = expected)).map (fun i => i + 1)

/-- The mutable counters of the evaluation loop. -/
structure EvalCounters where
  total_queries : Nat
  hits_at_1 : Nat
  hits_at_3 : Nat
  hits_at_5 : Nat
  hits_at_10 : Nat
  reciprocal_ranks : List ℚ
deriving DecidableEq, Repr

/-- One iteration of the evaluation loop (evaluate_search.py lines 72-99):
bump `total_queries`, bump each Hit@K counter when the rank is found and
`= 1` / `≤ 3` / `≤ 5` / `≤ 10`, and append `1/rank` (or `0`) to
`reciprocal_ranks`. -/
def evalStep (acc : EvalCounters) (q : String × List String) : EvalCounters :=
  let rank := findRank q.1 q.2
  match rank with
  | some r =>
      { total_queries := acc.total_queries + 1
        hits_at_1 := acc.hits_at_1 + (if r = 1 then 1 else 0)
        hits_at_3 := acc.hits_at_3 + (if r ≤ 3 then 1 else 0)
        hits_at_5 := acc.hits_at_5 + (if r ≤ 5 then 1 else 0)
        hits_at_10 := acc.hits_at_10 + (if r ≤ 10 then 1 else 0)
        reciprocal_ranks := acc.reciprocal_ranks ++ [(1 : ℚ) / r] }
  | none =>
      { acc with
        total_queries := acc.total_queries + 1
        reciprocal_ranks := acc.reciprocal_ranks ++ [(0 : ℚ)] }

/-- Run the evaluation loop over all queries. -/
def tally (queries : List (String × List String)) : EvalCounters :=
  queries.foldl evalStep
    { total_queries := 0, hits_at_1 := 0, hits_at_3 := 0, hits_at_5 := 0,
      hits_at_10 := 0, reciprocal_ranks := [] }

/-- Model of `hit_at_1_pct = (hits_at_1 / total_queries * 100) if total_queries else 0`
(evaluate_search.py line 111). -/
def hitPct (hits total : Nat) : ℚ :=
  if total ≠ 0 then (hits : ℚ) / total * 100 else 0

/-- Model of `mrr = sum(reciprocal_ranks) / len(reciprocal_ranks) if reciprocal_ranks
else 0` (evaluate_search.py line 115). -/
def mrrOf (m : EvalCounters) : ℚ :=
  if m.reciprocal_ranks ≠ [] then m.reciprocal_ranks.sum / m.reciprocal_ranks.length
  else 0

/-! ### A/B comparison rule (scripts/compare_embeddings.py lines 218-224) -/

/-- The printed verdict of `compare_embeddings.main`. -/
inductive Verdict where
  | translationWins
  | originalWins
  | similar
deriving DecidableEq, Repr

/-- The winner determination: `if t_mrr > o_mrr * 1.05 … elif o_mrr >
t_mrr * 1.05 … else similar`. -/
def compareRule (t_mrr o_mrr : ℚ) : Verdict :=
  if t_mrr > o_mrr * (105 / 100) then Verdict.translationWins
  else if o_mrr > t_mrr * (105 / 100) then Verdict.originalWins
  else Verdict.similar

/-! ### Derived notions used in the statements -/

/-- The pids of a point store. -/
def pidList (ps : List Point) : List Nat :=
  ps.map Point.pid

/-- The payload rubric ids of a point store
(`get_existing_ids c = idList c.points`). -/
def idList (ps : List Point) : List String :=
  ps.map (fun p => p.payload.rubric_id)

/-- Store well-formedness: every stored point's id is the masked hash of its
payload's rubric id.  Every store built by `add_rubrics` from an empty
collection satisfies this. -/
def wfStore (h : String → Int) (ps : List Point) : Prop :=
  ∀ p ∈ ps, p.pid = maskHash h p.payload.rubric_id

/-- Predicate `wf h c`: the collection's store is well-formed. -/
def wf (h : String → Int) (c : Collection) : Prop :=
  wfStore h c.points

/-- Predicate: `f` is injective on the members of `l`. -/
def InjOnIds (f : String → Nat) (l : List String) : Prop :=
  ∀ a ∈ l, ∀ b ∈ l, f a = f b → a = b

/-- Bool test for "expected id found at rank ≤ K". -/
def hitB (K : Nat) (q : String × List String) : Bool :=
  match findRank q.1 q.2 with
  | some r => r ≤ K
  | none => false

/-- Number of queries whose expected id is found at rank ≤ K. -/
def countHits (K : Nat) (queries : List (String × List String)) : Nat :=
  queries.countP (hitB K)

/-- The reciprocal rank of one query: `1/rank` when found, else `0`. -/
def recipOf (q : String × List String) : ℚ :=
  match findRank q.1 q.2 with
  | some r => (1 : ℚ) / r
  | none => 0

/-! ### Concrete instances used by witnesses and counterexamples -/

/-- A concrete rubric record. -/
def ra : RubricData :=
  { id := "a", path := "Mind, a", trans := "ta", chapter := "Mind", remedy_count := 1 }

/-- A second concrete rubric record with a distinct id. -/
def rb : RubricData :=
  { id := "b", path := "Mind, b", trans := "tb", chapter := "Mind", remedy_count := 2 }

/-- A rubric record whose id has length 2, for use with the length hash. -/
def rbb : RubricData :=
  { id := "bb", path := "Mind, bb", trans := "tbb", chapter := "Mind", remedy_count := 3 }

/-- A record sharing `ra`'s id but with a different payload. -/
def ra2 : RubricData :=
  { id := "a", path := "Mind, a2", trans := "ta2", chapter := "Mind", remedy_count := 9 }

/-- A degenerate process hash mapping every string to 0 — exhibits the
collision behaviour that some pair of distinct ids realizes under every
possible process hash (see `maskHash_not_injective`). -/
def h0 : String → Int := fun _ => 0

/-- A hash by string length: injective on ids of distinct lengths. -/
def hLen : String → Int := fun s => (s.length : Int)

/-- The empty freshly-created "rubrics" collection. -/
def empty0 : Collection := freshCollection "rubrics"

/-- A collection holding the single point for `ra` (under `h0`). -/
def one : Collection :=
  { cname := "rubrics", params := { size := 384, distance := Distance.cosine },
    points := [pointOf h0 ra] }

/-- A constant similarity function for concrete runs. -/
def sim0 : String → Point → ℚ := fun _ p => (p.pid : ℚ) / 10

/-- The three-query evaluation scenario of the spec: ranks 1, 3, not found. -/
def q3 : List (String × List String) :=
  [("r1", ["r1", "rX", "rY"]),
   ("r2", ["rX", "rY", "r2", "rZ"]),
   ("r3", ["rX", "rY"])]

/-- The concrete response `perform_search sim0 one "q" 10` produces. -/
def respC3 : SearchResponse :=
  { query := "q"
    results := [[("rubric_id", Val.s "a"), ("path", Val.s "Mind, a"),
                 ("translation", Val.s "ta"), ("chapter", Val.s "Mind"),
                 ("score", Val.q 0)]]
    total_in_collection := 1 }

/-! ## Supporting lemmas -/

theorem insertDesc_length (score : Point → ℚ) (p : Point) (l : List Point) :
    (insertDesc score p l).length = l.length + 1 := by
  induction l with
  | nil => rfl
  | cons q qs ih =>
      simp only [insertDesc]
      split
      · simp
      · simp [ih]

theorem sortByScoreDesc_length (score : Point → ℚ) (l : List Point) :
    (sortByScoreDesc score l).length = l.length := by
  induction l with
  | nil => rfl
  | cons p ps ih => simp [sortByScoreDesc, insertDesc_length, ih]

theorem search_length (sim : String → Point → ℚ) (c : Collection) (q : String)
    (k : Nat) : (search sim c q k).length = min k (count c) := by
  simp only [search, count, List.length_map, List.length_take, sortByScoreDesc_length]
  omega

theorem maskHash_lt (h : String → Int) (s : String) : maskHash h s < 2 ^ 63 := by
  unfold maskHash
  omega

/-- Under every possible process string-hash, some two distinct ids collide
after masking (pigeonhole: infinitely many strings, 2^63 masked values). -/
theorem maskHash_not_injective (h : String → Int) :
    ∃ a b : String, a ≠ b ∧ maskHash h a = maskHash h b := by
  obtain ⟨a, b, hne, heq⟩ := Finite.exists_ne_map_eq_of_infinite
    (fun s : String => (⟨maskHash h s, maskHash_lt h s⟩ : Fin (2 ^ 63)))
  exact ⟨a, b, hne, congrArg Fin.val heq⟩

theorem toBatches_flatten_of_le :
    ∀ (n : Nat) (l : List RubricData), l.length ≤ n → (toBatches l).flatten = l := by
  intro n
  induction n with
  | zero =>
      intro l hl
      rw [List.length_eq_zero.mp (Nat.le_zero.mp hl)]
      rw [toBatches]
      rfl
  | succ n ih =>
      intro l hl
      match l with
      | [] =>
          rw [toBatches]
          rfl
      | x :: xs =>
          rw [toBatches, List.flatten_cons]
          rw [ih ((x :: xs).drop BATCH_SIZE) (by simp [BATCH_SIZE] at hl ⊢; omega)]
          exact List.take_append_drop _ _

theorem toBatches_flatten (l : List RubricData) : (toBatches l).flatten = l :=
  toBatches_flatten_of_le l.length l le_rfl

theorem upsertPoints_append (store : List Point) (l₁ l₂ : List Point) :
    upsertPoints store (l₁ ++ l₂) = upsertPoints (upsertPoints store l₁) l₂ :=
  List.foldl_append _ _ _ _

theorem foldl_addStep (h : String → Int) (bs : List (List RubricData)) :
    ∀ (a : Nat) (c : Collection),
    bs.foldl (addStep h) (a, c) =
      (a + bs.flatten.length,
       { c with points := upsertPoints c.points (bs.flatten.map (pointOf h)) }) := by
  induction bs with
  | nil =>
      intro a c
      simp [upsertPoints]
  | cons b bs ih =>
      intro a c
      rw [List.foldl_cons, addStep, ih]
      simp [upsertPoints_append, Nat.add_assoc]

/-- The records that survive the skip-existing filter of `add_rubrics`. -/
def survivors (c : Collection) (rubrics : List RubricData) (skip : Bool) :
    List RubricData :=
  if skip then rubrics.filter (fun r => ¬ r.id ∈ get_existing_ids c) else rubrics

/-- Net effect of `add_rubrics`: the return value is the length of the
filtered input, and the new state upserts one point per surviving record in
order. -/
theorem add_rubrics_eq (h : String → Int) (c : Collection)
    (rubrics : List RubricData) (skip : Bool) :
    add_rubrics h c rubrics skip =
      ((survivors c rubrics skip).length,
       { c with points :=
          upsertPoints c.points ((survivors c rubrics skip).map (pointOf h)) }) := by
  unfold add_rubrics survivors
  by_cases he :
      (if skip then rubrics.filter (fun r => ¬ r.id ∈ get_existing_ids c)
       else rubrics).isEmpty
  · rw [if_pos he]
    rw [List.isEmpty_iff.mp he]
    simp [upsertPoints]
  · rw [if_neg he, foldl_addStep, toBatches_flatten]
    simp

theorem upsertPoint_pidList (store : List Point) (p : Point) :
    pidList (upsertPoint store p) =
      if store.any (fun q => q.pid = p.pid) then pidList store
      else pidList store ++ [p.pid] := by
  unfold upsertPoint pidList
  by_cases hany : store.any (fun q => q.pid = p.pid)
  · rw [if_pos hany, if_pos hany, List.map_map]
    apply List.map_congr_left
    intro q hq
    by_cases hqp : q.pid = p.pid
    · simp [Function.comp_apply, hqp]
    · simp [Function.comp_apply, hqp]
  · rw [if_neg hany, if_neg hany, List.map_append]
    rfl

theorem mem_pidList_upsertPoint (store : List Point) (p : Point) {x : Nat}
    (hx : x ∈ pidList store) : x ∈ pidList (upsertPoint store p) := by
  rw [upsertPoint_pidList]
  by_cases hany : store.any (fun q => q.pid = p.pid)
  · rw [if_pos hany]
    exact hx
  · rw [if_neg hany]
    exact List.mem_append_left _ hx

theorem pid_mem_upsertPoint (store : List Point) (p : Point) :
    p.pid ∈ pidList (upsertPoint store p) := by
  rw [upsertPoint_pidList]
  by_cases hany : store.any (fun q => q.pid = p.pid)
  · rw [if_pos hany]
    obtain ⟨q, hq, hqp⟩ := List.any_eq_true.mp hany
    exact List.mem_map.mpr ⟨q, hq, of_decide_eq_true hqp⟩
  · rw [if_neg hany]
    exact List.mem_append_right _ (List.mem_singleton.mpr rfl)

theorem upsertPoint_length_of_mem_pid (store : List Point) (p : Point)
    (hm : p.pid ∈ pidList store) : (upsertPoint store p).length = store.length := by
  unfold upsertPoint
  obtain ⟨q, hq, hqp⟩ := List.mem_map.mp hm
  rw [if_pos (List.any_eq_true.mpr ⟨q, hq, decide_eq_true hqp⟩)]
  exact List.length_map _ _

theorem upsertPoints_length_of_mem (ps : List Point) :
    ∀ store : List Point, (∀ p ∈ ps, p.pid ∈ pidList store) →
    (upsertPoints store ps).length = store.length := by
  induction ps with
  | nil => intro store _; rfl
  | cons p ps ih =>
      intro store hm
      have h2 := ih (upsertPoint store p)
        (fun q hq => mem_pidList_upsertPoint store p (hm q (List.mem_cons_of_mem p hq)))
      have h1 := upsertPoint_length_of_mem_pid store p (hm p (List.mem_cons_self p ps))
      calc (upsertPoints store (p :: ps)).length
          = (upsertPoints (upsertPoint store p) ps).length := rfl
        _ = (upsertPoint store p).length := h2
        _ = store.length := h1

theorem mem_pidList_upsertPoints (ps : List Point) :
    ∀ (store : List Point) {x : Nat}, x ∈ pidList store →
    x ∈ pidList (upsertPoints store ps) := by
  induction ps with
  | nil => intro store x hx; exact hx
  | cons p ps ih =>
      intro store x hx
      exact ih (upsertPoint store p) (mem_pidList_upsertPoint store p hx)

theorem pid_mem_upsertPoints (ps : List Point) :
    ∀ (store : List Point) (p : Point), p ∈ ps →
    p.pid ∈ pidList (upsertPoints store ps) := by
  induction ps with
  | nil => intro store p hp; cases hp
  | cons q qs ih =>
      intro store p hp
      rcases List.mem_cons.mp hp with rfl | hp'
      · exact mem_pidList_upsertPoints qs (upsertPoint store p)
          (pid_mem_upsertPoint store p)
      · exact ih (upsertPoint store q) p hp'

theorem wfStore_upsertPoint (h : String → Int) (store : List Point)
    (r : RubricData) (hwf : wfStore h store) :
    wfStore h (upsertPoint store (pointOf h r)) := by
  intro p hp
  unfold upsertPoint at hp
  by_cases hany : store.any (fun q => q.pid = (pointOf h r).pid)
  · rw [if_pos hany] at hp
    obtain ⟨q, hq, hfq⟩ := List.mem_map.mp hp
    by_cases hqp : q.pid = (pointOf h r).pid
    · rw [if_pos hqp] at hfq
      rw [← hfq]
      rfl
    · rw [if_neg hqp] at hfq
      rw [← hfq]
      exact hwf q hq
  · rw [if_neg hany] at hp
    rcases List.mem_append.mp hp with hp' | hp'
    · exact hwf p hp'
    · rw [List.mem_singleton.mp hp']
      rfl

theorem rid_mem_idList_upsertPoint (h : String → Int) (store : List Point)
    (r : RubricData) : r.id ∈ idList (upsertPoint store (pointOf h r)) := by
  unfold upsertPoint
  by_cases hany : store.any (fun q => q.pid = (pointOf h r).pid)
  · rw [if_pos hany]
    obtain ⟨q, hq, hqp⟩ := List.any_eq_true.mp hany
    apply List.mem_map.mpr
    refine ⟨pointOf h r, ?_, rfl⟩
    exact List.mem_map.mpr ⟨q, hq, by rw [if_pos (of_decide_eq_true hqp)]⟩
  · rw [if_neg hany]
    unfold idList
    rw [List.map_append]
    exact List.mem_append_right _ (List.mem_singleton.mpr rfl)

theorem upsertPoint_idList_of_wf (h : String → Int) (store : List Point)
    (r : RubricData) (hwf : wfStore h store)
    (hloc : ∀ x ∈ idList store, maskHash h x = maskHash h r.id → x = r.id) :
    idList (upsertPoint store (pointOf h r)) = idList store ∨
    idList (upsertPoint store (pointOf h r)) = idList store ++ [r.id] := by
  by_cases hany : store.any (fun q => q.pid = (pointOf h r).pid)
  · left
    unfold upsertPoint
    rw [if_pos hany]
    unfold idList
    rw [List.map_map]
    apply List.map_congr_left
    intro q hq
    by_cases hqp : q.pid = (pointOf h r).pid
    · simp only [Function.comp_apply, if_pos hqp]
      have hmask : maskHash h q.payload.rubric_id = maskHash h r.id := by
        rw [← hwf q hq]
        exact hqp
      exact (hloc q.payload.rubric_id (List.mem_map.mpr ⟨q, hq, rfl⟩) hmask).symm
    · simp only [Function.comp_apply, if_neg hqp]
  · right
    unfold upsertPoint
    rw [if_neg hany]
    unfold idList
    rw [List.map_append]
    rfl

theorem upsertPoints_ids (h : String → Int) (D : List String)
    (hinj : InjOnIds (maskHash h) D) :
    ∀ (todo : List RubricData) (store : List Point),
    wfStore h store →
    (∀ x ∈ idList store, x ∈ D) →
    (∀ r ∈ todo, r.id ∈ D) →
    (wfStore h (upsertPoints store (todo.map (pointOf h))) ∧
     (∀ x ∈ idList store, x ∈ idList (upsertPoints store (todo.map (pointOf h)))) ∧
     (∀ x ∈ idList (upsertPoints store (todo.map (pointOf h))), x ∈ D) ∧
     (∀ r ∈ todo, r.id ∈ idList (upsertPoints store (todo.map (pointOf h))))) := by
  intro todo
  induction todo with
  | nil =>
      intro store hwf hsub _
      exact ⟨hwf, fun x hx => hx, hsub, fun r hr => absurd hr (List.not_mem_nil r)⟩
  | cons r todo ih =>
      intro store hwf hsub htodo
      have hrD : r.id ∈ D := htodo r (List.mem_cons_self r todo)
      have hloc : ∀ x ∈ idList store, maskHash h x = maskHash h r.id → x = r.id :=
        fun x hx hm => hinj x (hsub x hx) r.id hrD hm
      have hrep := upsertPoint_idList_of_wf h store r hwf hloc
      have hwf' : wfStore h (upsertPoint store (pointOf h r)) :=
        wfStore_upsertPoint h store r hwf
      have hold : ∀ x ∈ idList store, x ∈ idList (upsertPoint store (pointOf h r)) := by
        rcases hrep with he | he <;> rw [he]
        · exact fun x hx => hx
        · exact fun x hx => List.mem_append_left _ hx
      have hsub' : ∀ x ∈ idList (upsertPoint store (pointOf h r)), x ∈ D := by
        rcases hrep with he | he <;> rw [he]
        · exact hsub
        · intro x hx
          rcases List.mem_append.mp hx with hx' | hx'
          · exact hsub x hx'
          · rw [List.mem_singleton.mp hx']
            exact hrD
      have hrid : r.id ∈ idList (upsertPoint store (pointOf h r)) :=
        rid_mem_idList_upsertPoint h store r
      obtain ⟨w1, w2, w3, w4⟩ := ih (upsertPoint store (pointOf h r)) hwf' hsub'
        (fun r' hr' => htodo r' (List.mem_cons_of_mem r hr'))
      refine ⟨w1, fun x hx => w2 x (hold x hx), w3, ?_⟩
      intro r' hr'
      rcases List.mem_cons.mp hr' with rfl | hr''
      · exact w2 r'.id hrid
      · exact w4 r' hr''

/-! ## Claim theorems -/

/-- C1: `RubricEmbedder.search` issues its nearest-neighbour query with limit
`min(top_k, max(1, count()))` (embedded as such in `search`), returns at most
`min(top_k, count())` results — in fact exactly that many — and on an empty
collection returns the empty list without raising. -/
theorem C1_search_bounds (sim : String → Point → ℚ) (c : Collection)
    (q : String) (k : Nat) :
    (search sim c q k).length = min k (count c) ∧
    (count c = 0 → search sim c q k = []) := by
  refine ⟨search_length sim c q k, fun hc => ?_⟩
  have h := search_length sim c q k
  rw [hc, Nat.min_zero] at h
  exact List.length_eq_zero.mp h

/-- Witness for C1 at a concrete empty collection. -/
theorem C1_search_bounds_witness :
    (search sim0 empty0 "q" 10).length = min 10 (count empty0) ∧
    search sim0 empty0 "q" 10 = [] :=
  ⟨(C1_search_bounds sim0 empty0 "q" 10).1,
   (C1_search_bounds sim0 empty0 "q" 10).2 rfl⟩

/-- C8: after `clear()` the collection exists under the same name with the
same fixed schema (384-dimensional vectors, cosine distance), `count()` is 0,
and a subsequent `search` with any query returns the empty list. -/
theorem C8_clear_semantics (c : Collection) (sim : String → Point → ℚ)
    (q : String) (k : Nat) :
    (clear c).cname = c.cname ∧
    (clear c).params = { size := 384, distance := Distance.cosine } ∧
    count (clear c) = 0 ∧
    search sim (clear c) q k = [] := by
  refine ⟨rfl, rfl, rfl, ?_⟩
  have h := search_length sim (clear c) q k
  have hc : count (clear c) = 0 := rfl
  rw [hc, Nat.min_zero] at h
  exact List.length_eq_zero.mp h

/-- C6: the HTTP search handler raises the 503 "ingest first" error exactly
when the collection has zero points; a non-empty collection always yields a
normal `SearchResponse`. -/
theorem C6_not_ready (sim : String → Point → ℚ) (c : Collection) (q : String)
    (k : Nat) :
    ((∃ e, perform_search sim c q k = Except.error e ∧ e.status_code = 503 ∧
        e.detail = "No rubrics in collection. Run embed_rubrics.py first.") ↔
      count c = 0) ∧
    ((∃ resp, perform_search sim c q k = Except.ok resp) ↔ count c ≠ 0) := by
  unfold perform_search
  by_cases hc : count c = 0
  · simp [hc]
  · simp [hc]

/-- C10: the constructor selects cloud mode iff both a URL and an API key are
available (a truthy explicit argument or, failing that, a truthy environment
variable), and the mode is always "cloud" or "local". -/
theorem C10_init_mode (url api_key envUrl envKey : Option String) :
    (initMode url api_key envUrl envKey = "cloud" ↔
      ((pyTruthy url ∨ pyTruthy envUrl) ∧ (pyTruthy api_key ∨ pyTruthy envKey))) ∧
    (initMode url api_key envUrl envKey = "cloud" ∨
      initMode url api_key envUrl envKey = "local") := by
  have hne : ("local" : String) = "cloud" ↔ False := by
    simp only [iff_false]
    decide
  unfold initMode pyOr
  constructor
  · by_cases h1 : pyTruthy url <;> by_cases h2 : pyTruthy envUrl <;>
      by_cases h3 : pyTruthy api_key <;> by_cases h4 : pyTruthy envKey <;>
      simp [h1, h2, h3, h4, hne]
  · by_cases h1 : pyTruthy url <;> by_cases h2 : pyTruthy envUrl <;>
      by_cases h3 : pyTruthy api_key <;> by_cases h4 : pyTruthy envKey <;>
      simp [h1, h2, h3, h4]

/-- C4 counterexample: the stored point id `hash(id) & 0x7FFFFFFFFFFFFFFF` is
neither strictly positive for every id nor stable across processes: under a
process hash sending every string to 0 (CPython really does hash `""` to 0)
the masked value is 0, and a different process salt gives a different value.
The claim, formalized over the per-process string-hash function, is false. -/
theorem C4_counterexample :
    ¬ (∀ (h₁ h₂ : String → Int) (s : String),
        0 < maskHash h₁ s ∧ maskHash h₁ s = maskHash h₂ s) := by
  intro hcl
  have h := hcl h0 (fun _ => 1) "a"
  have h1 : maskHash h0 "a" = 0 := by decide
  rw [h1] at h
  exact lt_irrefl 0 h.1

/-- C4 (amended): the stored point id `hash(id) mod 2^63` is a nonnegative
integer below `2^63`, and is determined by the process hash value of the id:
whenever two (process, id) pairs hash equally, the point ids agree.  Within a
single process the same id therefore always maps to the same point id, but
the value may be 0 and varies across processes with the salted hash. -/
theorem C4_point_id (h : String → Int) (s : String) :
    maskHash h s < 2 ^ 63 ∧
    (∀ (h' : String → Int) (s' : String), h s = h' s' →
      maskHash h s = maskHash h' s') := by
  refine ⟨maskHash_lt h s, fun h' s' he => ?_⟩
  unfold maskHash
  rw [he]

/-- Witness for C4 at a concrete hash and id. -/
theorem C4_point_id_witness :
    maskHash hLen "a" < 2 ^ 63 ∧
    maskHash hLen "a" = maskHash (fun _ => (1 : Int)) "bb" :=
  ⟨(C4_point_id hLen "a").1,
   (C4_point_id hLen "a").2 (fun _ => (1 : Int)) "bb" rfl⟩

/-- C9: `add_rubrics` returns the number of records surviving the
skip-existing filter (all of them when `skip_existing` is false), not the
number of distinct points stored; two surviving records sharing an id (or two
ids sharing a masked hash) collapse to one upserted point, so `count()` can
grow by strictly less than the returned value. -/
theorem C9_return_value :
    (∀ (h : String → Int) (c : Collection) (rubrics : List RubricData)
        (skip : Bool),
      (add_rubrics h c rubrics skip).1 = (survivors c rubrics skip).length) ∧
    (∀ (h : String → Int) (c : Collection) (rubrics : List RubricData),
      (add_rubrics h c rubrics false).1 = rubrics.length) ∧
    ((add_rubrics hLen empty0 [ra, ra2] false).1 = 2 ∧
     count (add_rubrics hLen empty0 [ra, ra2] false).2 = 1 ∧
     count empty0 = 0) ∧
    ((add_rubrics h0 empty0 [ra, rb] true).1 = 2 ∧
     count (add_rubrics h0 empty0 [ra, rb] true).2 = 1) := by
  refine ⟨?_, ?_, ?_, ?_⟩
  · intro h c rubrics skip
    rw [add_rubrics_eq]
  · intro h c rubrics
    rw [add_rubrics_eq]
    simp [survivors]
  · simp only [add_rubrics_eq]
    decide
  · simp only [add_rubrics_eq]
    decide

/-- C3 counterexample: the HTTP search response's result objects do NOT carry
`remedy_count`: the Pydantic `RubricResult` model declares only five fields
and drops the extra key.  Concretely, for a one-point collection the response
result has exactly the keys rubric_id, path, translation, chapter, score. -/
theorem round4_zero : round4 0 = 0 := by
  unfold round4
  norm_num

theorem pid_ra : (pointOf h0 ra).pid = 0 := by
  simp [pointOf, maskHash, h0]

theorem sim0_ra : sim0 "q" (pointOf h0 ra) = 0 := by
  simp [sim0, pid_ra]

theorem count_one : count one = 1 := rfl

theorem search_one : search sim0 one "q" 10 =
    [{ rubric_id := "a", path := "Mind, a", trans := "ta", chapter := "Mind",
       remedy_count := 1, score := 0 }] := by
  simp only [search, count_one]
  norm_num [one, sortByScoreDesc, insertDesc, sim0_ra, round4_zero]
  simp [pointOf, ra]

theorem perform_search_one : perform_search sim0 one "q" 10 = Except.ok respC3 := by
  simp [perform_search, count_one, search_one, mkRubricResult, resultEntries,
    rubricResultFields, respC3, List.lookup]

theorem C3_counterexample :
    perform_search sim0 one "q" 10 = Except.ok respC3 ∧
    (∃ d ∈ respC3.results, ¬ "remedy_count" ∈ d.map Prod.fst) := by
  refine ⟨perform_search_one, ?_⟩
  decide

/-- C3 (amended): every result in a successful Search API response contains
exactly the five fields rubric_id, path, translation, chapter and score —
`remedy_count` is dropped by the response model — alongside the echoed query
and `total_in_collection = count()`. -/
theorem C3_api_fields (sim : String → Point → ℚ) (c : Collection) (q : String)
    (k : Nat) (resp : SearchResponse)
    (hok : perform_search sim c q k = Except.ok resp) :
    resp.query = q ∧ resp.total_in_collection = count c ∧
    ∀ d ∈ resp.results, d.map Prod.fst = rubricResultFields := by
  unfold perform_search at hok
  by_cases hc : count c = 0
  · rw [if_pos hc] at hok
    exact absurd hok (by simp)
  · rw [if_neg hc] at hok
    have hresp := (Except.ok.injEq _ _).mp hok
    subst hresp
    refine ⟨rfl, rfl, ?_⟩
    intro d hd
    obtain ⟨r, _, hdr⟩ := List.mem_map.mp hd
    rw [← hdr]
    rfl

/-- Witness for C3 at a concrete one-point collection. -/
theorem C3_api_fields_witness :
    respC3.query = "q" ∧ respC3.total_in_collection = count one ∧
    ∀ d ∈ respC3.results, d.map Prod.fst = rubricResultFields :=
  C3_api_fields sim0 one "q" 10 respC3 perform_search_one

theorem foldl_evalStep_rr_nonneg (queries : List (String × List String)) :
    ∀ acc : EvalCounters, (∀ x ∈ acc.reciprocal_ranks, 0 ≤ x) →
    ∀ x ∈ (queries.foldl evalStep acc).reciprocal_ranks, 0 ≤ x := by
  induction queries with
  | nil => intro acc hacc; exact hacc
  | cons q qs ih =>
      intro acc hacc
      rw [List.foldl_cons]
      apply ih
      intro x hx
      rcases hr : findRank q.1 q.2 with _ | r <;>
        simp only [evalStep, hr] at hx <;>
        rcases List.mem_append.mp hx with hx' | hx'
      · exact hacc x hx'
      · simp only [List.mem_singleton] at hx'
        rw [hx']
      · exact hacc x hx'
      · simp only [List.mem_singleton] at hx'
        rw [hx']
        positivity

theorem mrr_nonneg (queries : List (String × List String)) :
    0 ≤ mrrOf (tally queries) := by
  unfold mrrOf
  split
  · apply div_nonneg
    · exact List.sum_nonneg (foldl_evalStep_rr_nonneg queries _ (by simp [tally]))
    · positivity
  · exact le_refl 0

/-- C7: the A/B comparison reports strategy A (translation embeddings) as the
winner iff A's MRR strictly exceeds 1.05 times B's MRR, reports B (original
paths) as the winner iff B's MRR strictly exceeds 1.05 times A's, and reports
the strategies as equivalent iff neither margin is exceeded — for the MRRs
actually produced by the evaluation harness (which are nonnegative). -/
theorem C7_compare_rule (qsT qsO : List (String × List String)) :
    (compareRule (mrrOf (tally qsT)) (mrrOf (tally qsO)) = Verdict.translationWins ↔
      mrrOf (tally qsT) > mrrOf (tally qsO) * (105 / 100)) ∧
    (compareRule (mrrOf (tally qsT)) (mrrOf (tally qsO)) = Verdict.originalWins ↔
      mrrOf (tally qsO) > mrrOf (tally qsT) * (105 / 100)) ∧
    (compareRule (mrrOf (tally qsT)) (mrrOf (tally qsO)) = Verdict.similar ↔
      (mrrOf (tally qsT) ≤ mrrOf (tally qsO) * (105 / 100) ∧
       mrrOf (tally qsO) ≤ mrrOf (tally qsT) * (105 / 100))) := by
  have ht : 0 ≤ mrrOf (tally qsT) := mrr_nonneg qsT
  have ho : 0 ≤ mrrOf (tally qsO) := mrr_nonneg qsO
  unfold compareRule
  split_ifs with h1 h2
  · refine ⟨iff_of_true rfl h1, iff_of_false (by decide) ?_, iff_of_false (by decide) ?_⟩
    · intro h2
      nlinarith
    · intro hc
      exact absurd h1 (not_lt.mpr hc.1)
  · exact ⟨iff_of_false (by decide) h1, iff_of_true rfl h2,
      iff_of_false (by decide) (fun hc => absurd h2 (not_lt.mpr hc.2))⟩
  · exact ⟨iff_of_false (by decide) h1, iff_of_false (by decide) h2,
      iff_of_true rfl ⟨not_lt.mp h1, not_lt.mp h2⟩⟩

theorem findRank_pos {e : String} {l : List String} {r : Nat}
    (h : findRank e l = some r) : 1 ≤ r := by
  unfold findRank at h
  rcases hf : l.findIdx? (fun rid => rid = e) with _ | i
  · rw [hf] at h
    simp at h
  · rw [hf] at h
    simp at h
    omega

theorem evalStep_eq (acc : EvalCounters) (q : String × List String) :
    evalStep acc q =
      { total_queries := acc.total_queries + 1
        hits_at_1 := acc.hits_at_1 + (if hitB 1 q then 1 else 0)
        hits_at_3 := acc.hits_at_3 + (if hitB 3 q then 1 else 0)
        hits_at_5 := acc.hits_at_5 + (if hitB 5 q then 1 else 0)
        hits_at_10 := acc.hits_at_10 + (if hitB 10 q then 1 else 0)
        reciprocal_ranks := acc.reciprocal_ranks ++ [recipOf q] } := by
  rcases hr : findRank q.1 q.2 with _ | r
  · simp [evalStep, hitB, recipOf, hr]
  · have hp : 1 ≤ r := findRank_pos hr
    rcases acc with ⟨t, a1, a3, a5, a10, rr⟩
    simp only [evalStep, hitB, recipOf, hr, EvalCounters.mk.injEq,
      decide_eq_true_eq]
    refine ⟨?_, ?_, ?_, ?_, ?_, ?_⟩ <;>
      first
        | rfl
        | trivial
        | (split_ifs <;> omega)

theorem foldl_evalStep (queries : List (String × List String)) :
    ∀ acc : EvalCounters,
    (queries.foldl evalStep acc).total_queries = acc.total_queries + queries.length ∧
    (queries.foldl evalStep acc).hits_at_1 = acc.hits_at_1 + countHits 1 queries ∧
    (queries.foldl evalStep acc).hits_at_3 = acc.hits_at_3 + countHits 3 queries ∧
    (queries.foldl evalStep acc).hits_at_5 = acc.hits_at_5 + countHits 5 queries ∧
    (queries.foldl evalStep acc).hits_at_10 = acc.hits_at_10 + countHits 10 queries ∧
    (queries.foldl evalStep acc).reciprocal_ranks =
      acc.reciprocal_ranks ++ queries.map recipOf := by
  induction queries with
  | nil => intro acc; simp [countHits]
  | cons q qs ih =>
      intro acc
      obtain ⟨ht, h1, h3, h5, h10, hrr⟩ := ih (evalStep acc q)
      refine ⟨?_, ?_, ?_, ?_, ?_, ?_⟩ <;> rw [List.foldl_cons]
      · rw [ht, evalStep_eq]
        simp
        omega
      · rw [h1, evalStep_eq]
        by_cases hB : hitB 1 q = true <;>
          simp [countHits, List.countP_cons, hB] <;> omega
      · rw [h3, evalStep_eq]
        by_cases hB : hitB 3 q = true <;>
          simp [countHits, List.countP_cons, hB] <;> omega
      · rw [h5, evalStep_eq]
        by_cases hB : hitB 5 q = true <;>
          simp [countHits, List.countP_cons, hB] <;> omega
      · rw [h10, evalStep_eq]
        by_cases hB : hitB 10 q = true <;>
          simp [countHits, List.countP_cons, hB] <;> omega
      · rw [hrr, evalStep_eq]
        simp

/-- C5: the harness computes each Hit@K percentage as 100 times the fraction
of queries whose expected rubric_id occurs at 1-indexed rank ≤ K in the
returned results, and MRR as the arithmetic mean over all queries of the
reciprocal rank (1/rank when found, 0 otherwise); in particular, for three
queries ranking at 1, at 3, and not found, it reports Hit@1 = 1/3 (as the
percentage 100·1/3), Hit@5 = 2/3, and MRR = (1 + 1/3 + 0)/3. -/
theorem C5_eval_metrics :
    (∀ queries : List (String × List String), queries ≠ [] →
      ((tally queries).total_queries = queries.length ∧
       hitPct (tally queries).hits_at_1 (tally queries).total_queries =
         (countHits 1 queries : ℚ) / queries.length * 100 ∧
       hitPct (tally queries).hits_at_3 (tally queries).total_queries =
         (countHits 3 queries : ℚ) / queries.length * 100 ∧
       hitPct (tally queries).hits_at_5 (tally queries).total_queries =
         (countHits 5 queries : ℚ) / queries.length * 100 ∧
       hitPct (tally queries).hits_at_10 (tally queries).total_queries =
         (countHits 10 queries : ℚ) / queries.length * 100 ∧
       mrrOf (tally queries) = (queries.map recipOf).sum / queries.length)) ∧
    (hitPct (tally q3).hits_at_1 (tally q3).total_queries = 1 / 3 * 100 ∧
     hitPct (tally q3).hits_at_5 (tally q3).total_queries = 2 / 3 * 100 ∧
     mrrOf (tally q3) = (1 + 1 / 3 + 0) / 3) := by
  have hgen : ∀ queries : List (String × List String), queries ≠ [] →
      ((tally queries).total_queries = queries.length ∧
       hitPct (tally queries).hits_at_1 (tally queries).total_queries =
         (countHits 1 queries : ℚ) / queries.length * 100 ∧
       hitPct (tally queries).hits_at_3 (tally queries).total_queries =
         (countHits 3 queries : ℚ) / queries.length * 100 ∧
       hitPct (tally queries).hits_at_5 (tally queries).total_queries =
         (countHits 5 queries : ℚ) / queries.length * 100 ∧
       hitPct (tally queries).hits_at_10 (tally queries).total_queries =
         (countHits 10 queries : ℚ) / queries.length * 100 ∧
       mrrOf (tally queries) = (queries.map recipOf).sum / queries.length) := by
    intro qs hne
    obtain ⟨ht, h1, h3, h5, h10, hrr⟩ := foldl_evalStep qs
      { total_queries := 0, hits_at_1 := 0, hits_at_3 := 0, hits_at_5 := 0,
        hits_at_10 := 0, reciprocal_ranks := [] }
    have hlen : qs.length ≠ 0 := fun h => hne (List.length_eq_zero.mp h)
    rw [tally] at *
    simp only [Nat.zero_add, List.nil_append] at ht h1 h3 h5 h10 hrr
    refine ⟨ht, ?_, ?_, ?_, ?_, ?_⟩
    · rw [hitPct, ht, h1, if_pos hlen]
    · rw [hitPct, ht, h3, if_pos hlen]
    · rw [hitPct, ht, h5, if_pos hlen]
    · rw [hitPct, ht, h10, if_pos hlen]
    · rw [mrrOf, hrr]
      have hmne : qs.map recipOf ≠ [] := by
        intro h
        exact hne (List.map_eq_nil_iff.mp h)
      rw [if_pos hmne, List.length_map]
  refine ⟨hgen, ?_⟩
  obtain ⟨_, c1, _, c5, _, cm⟩ := hgen q3 (by decide)
  have hc1 : countHits 1 q3 = 1 := by decide
  have hc5 : countHits 5 q3 = 2 := by decide
  have hl3 : q3.length = 3 := by decide
  refine ⟨?_, ?_, ?_⟩
  · rw [c1, hc1, hl3]
    norm_num
  · rw [c5, hc5, hl3]
    norm_num
  · rw [cm, hl3]
    have hr1 : findRank "r1" ["r1", "rX", "rY"] = some 1 := by decide
    have hr2 : findRank "r2" ["rX", "rY", "r2", "rZ"] = some 3 := by decide
    have hr3 : findRank "r3" ["rX", "rY"] = none := by decide
    have hmap : q3.map recipOf = [1, 1 / 3, 0] := by
      simp [q3, recipOf, hr1, hr2, hr3]
    rw [hmap]
    norm_num

/-- C2 counterexample: re-running `add_rubrics` with `skip_existing=true` on
an unchanged input is NOT guaranteed to return 0: when two distinct input ids
share a masked-hash point id (possible under every process hash, see
`maskHash_not_injective`), the second record's upsert overwrites the first
record's point, so the first id is absent from `get_existing_ids()` and is
re-added by the second call.  Concretely, under the collision hash `h0` the
second call on `[ra, rb]` returns 1, not 0. -/
theorem C2_counterexample :
    ¬ (∀ (h : String → Int) (c : Collection) (rubrics : List RubricData),
        wf h c →
        ((add_rubrics h (add_rubrics h c rubrics true).2 rubrics true).1 = 0 ∧
         count (add_rubrics h (add_rubrics h c rubrics true).2 rubrics true).2 =
           count (add_rubrics h c rubrics true).2)) := by
  intro hcl
  have hwf0 : wf h0 empty0 := by
    intro p hp
    simp [empty0, freshCollection] at hp
  have h1 := (hcl h0 empty0 [ra, rb] hwf0).1
  have h2 : (add_rubrics h0 (add_rubrics h0 empty0 [ra, rb] true).2 [ra, rb] true).1
      = 1 := by
    simp only [add_rubrics_eq]
    decide
  rw [h2] at h1
  exact Nat.one_ne_zero h1

/-- C2 (amended): starting from a well-formed collection (every stored
point's id is the masked hash of its payload rubric id — true of every state
the embedder builds), a second `add_rubrics` call with `skip_existing=true`
and the unchanged input leaves `count()` unchanged unconditionally, and
returns 0 — every record being filtered out against `get_existing_ids()`
before any upsert — provided no two distinct ids involved (input ids and
stored ids) collide under the masked hash. -/
theorem C2_idempotent (h : String → Int) (c : Collection)
    (rubrics : List RubricData) (hwf : wf h c) :
    count (add_rubrics h (add_rubrics h c rubrics true).2 rubrics true).2 =
      count (add_rubrics h c rubrics true).2 ∧
    (InjOnIds (maskHash h) (rubrics.map RubricData.id ++ get_existing_ids c) →
      (add_rubrics h (add_rubrics h c rubrics true).2 rubrics true).1 = 0) := by
  have e1 := add_rubrics_eq h c rubrics true
  have hsurv : ∀ r ∈ survivors c rubrics true, r ∈ rubrics := by
    intro r hr
    unfold survivors at hr
    rw [if_pos rfl] at hr
    exact List.mem_of_mem_filter hr
  have hsurv' : ∀ r ∈ rubrics, ¬ r.id ∈ get_existing_ids c →
      r ∈ survivors c rubrics true := by
    intro r hr hnot
    unfold survivors
    rw [if_pos rfl]
    exact List.mem_filter.mpr ⟨hr, by simpa using hnot⟩
  have hpid : ∀ r ∈ rubrics, (pointOf h r).pid ∈
      pidList (add_rubrics h c rubrics true).2.points := by
    intro r hr
    rw [e1]
    by_cases hcase : r.id ∈ get_existing_ids c
    · obtain ⟨q, hq, hqid⟩ := List.mem_map.mp hcase
      have hqpid : q.pid = (pointOf h r).pid := by
        rw [hwf q hq, hqid]
        rfl
      exact mem_pidList_upsertPoints _ _ (List.mem_map.mpr ⟨q, hq, hqpid⟩)
    · exact pid_mem_upsertPoints _ _ _
        (List.mem_map_of_mem _ (hsurv' r hr hcase))
  constructor
  · rw [add_rubrics_eq h (add_rubrics h c rubrics true).2 rubrics true]
    show (upsertPoints (add_rubrics h c rubrics true).2.points _).length = _
    apply upsertPoints_length_of_mem
    intro p hp
    obtain ⟨r, hr, rfl⟩ := List.mem_map.mp hp
    have hrmem : r ∈ rubrics := by
      unfold survivors at hr
      rw [if_pos rfl] at hr
      exact List.mem_of_mem_filter hr
    exact hpid r hrmem
  · intro hinj
    obtain ⟨_, hold, _, hnew⟩ := upsertPoints_ids h
      (rubrics.map RubricData.id ++ get_existing_ids c) hinj
      (survivors c rubrics true) c.points hwf
      (fun x hx => List.mem_append_right _ hx)
      (fun r hr => List.mem_append_left _ (List.mem_map_of_mem _ (hsurv r hr)))
    have hall : ∀ r ∈ rubrics,
        r.id ∈ get_existing_ids (add_rubrics h c rubrics true).2 := by
      intro r hr
      show r.id ∈ idList (add_rubrics h c rubrics true).2.points
      rw [e1]
      by_cases hcase : r.id ∈ get_existing_ids c
      · exact hold r.id hcase
      · exact hnew r (hsurv' r hr hcase)
    rw [add_rubrics_eq h (add_rubrics h c rubrics true).2 rubrics true]
    show (survivors (add_rubrics h c rubrics true).2 rubrics true).length = 0
    rw [List.length_eq_zero]
    unfold survivors
    rw [if_pos rfl]
    rw [List.filter_eq_nil_iff]
    intro r hr
    simp only [decide_eq_true_eq, Decidable.not_not]
    exact hall r hr

/-- Witness for C2: an injective masked hash (string length on ids "a",
"bb") from the empty collection — the second call returns 0 and the count is
unchanged. -/
theorem C2_idempotent_witness :
    count (add_rubrics hLen (add_rubrics hLen empty0 [ra, rbb] true).2
      [ra, rbb] true).2 =
      count (add_rubrics hLen empty0 [ra, rbb] true).2 ∧
    (add_rubrics hLen (add_rubrics hLen empty0 [ra, rbb] true).2
      [ra, rbb] true).1 = 0 := by
  have hwf0 : wf hLen empty0 := by
    intro p hp
    simp [empty0, freshCollection] at hp
  have hthm := C2_idempotent hLen empty0 [ra, rbb] hwf0
  refine ⟨hthm.1, hthm.2 ?_⟩
  unfold InjOnIds
  decide

/-- Witness for C5: the general metric characterization applied at the
concrete three-query scenario. -/
theorem C5_eval_metrics_witness :
    (tally q3).total_queries = q3.length ∧
    hitPct (tally q3).hits_at_1 (tally q3).total_queries =
      (countHits 1 q3 : ℚ) / q3.length * 100 ∧
    hitPct (tally q3).hits_at_3 (tally q3).total_queries =
      (countHits 3 q3 : ℚ) / q3.length * 100 ∧
    hitPct (tally q3).hits_at_5 (tally q3).total_queries =
      (countHits 5 q3 : ℚ) / q3.length * 100 ∧
    hitPct (tally q3).hits_at_10 (tally q3).total_queries =
      (countHits 10 q3 : ℚ) / q3.length * 100 ∧
    mrrOf (tally q3) = (q3.map recipOf).sum / q3.length :=
  C5_eval_metrics.1 q3 (by decide)

end RubricFinder
